import Mathlib

/-!
Verification of the Zenith Vulkan backend (device selection, queue resolution,
render pass and attachment construction, vertex input layout derivation,
presentable-surface lifecycle and the command-buffer pool) against its
specification.  Every definition below is a shallow embedding of the
corresponding C++ function; native Vulkan handles are modelled as natural
numbers with 0 standing for VK_NULL_HANDLE, C++ exceptions as Except values,
and float scores as rationals.
-/

namespace Zenith

/-- Error values for every std::runtime_error throw site that the embedded
functions can reach. -/
inductive ZenError where
  | noDevices
  | noSuitableDevice
  | noQueueFamilies
  | noGraphicsQueueFamily
  | noPresentQueueFamily
  | noGraphicsQueue
  | noPresentQueue
  | attachmentIndexNotSet
  | clearIsNotStoreOp
  | storeIsNotLoadOp
  | noAttachments
  deriving DecidableEq, Repr

/-- Vertex input formats, enum class InputFormat in zenith_vulkan.h. -/
inductive InputFormat where
  | Vector3
  | Vector2
  | Vector4
  | Color
  | Float
  | Int
  | Uint
  | Bool
  | Mat3
  | Mat4
  deriving DecidableEq, Repr

/-- The Vulkan formats that the backend mentions (VkFormat values appearing in
formats.cpp, presentable.cpp and device.cpp). -/
inductive VkFormat where
  | Undefined
  | R32G32B32Sfloat
  | R32G32Sfloat
  | R32G32B32A32Sfloat
  | R32Sfloat
  | R32Sint
  | R32Uint
  | R8Uint
  | B8G8R8A8Srgb
  | D32Sfloat
  deriving DecidableEq, Repr

/-- zen::toVulkanFormat from formats.cpp: the switch over InputFormat. -/
def toVulkanFormat : InputFormat → VkFormat
  | InputFormat.Vector3 => VkFormat.R32G32B32Sfloat
  | InputFormat.Vector2 => VkFormat.R32G32Sfloat
  | InputFormat.Vector4 => VkFormat.R32G32B32A32Sfloat
  | InputFormat.Color => VkFormat.R32G32B32A32Sfloat
  | InputFormat.Float => VkFormat.R32Sfloat
  | InputFormat.Int => VkFormat.R32Sint
  | InputFormat.Uint => VkFormat.R32Uint
  | InputFormat.Bool => VkFormat.R8Uint
  | InputFormat.Mat3 => VkFormat.R32G32B32Sfloat
  | InputFormat.Mat4 => VkFormat.R32G32B32A32Sfloat

/-- One typed field of an InputDescriptor: the data an
InputDescriptorItemInterface pointer exposes through getLocation, getFormat
and getSize. -/
structure InputDescriptorItem where
  location : Int
  format : InputFormat
  size : Nat
  deriving DecidableEq, Repr

/-- VkVertexInputBindingDescription as buildInputLayout fills it: binding 0,
the computed stride, and the per-vertex input rate. -/
structure VertexInputBindingDescription where
  binding : Nat
  stride : Nat
  perVertexInputRate : Bool
  deriving DecidableEq, Repr

/-- VkVertexInputAttributeDescription as buildInputLayout fills it. -/
structure VertexInputAttributeDescription where
  location : Int
  binding : Nat
  format : VkFormat
  offset : Nat
  deriving DecidableEq, Repr

/-- InputDescriptor::buildInputLayout from pipeline.cpp: the stride is the sum
of all field sizes; attribute i receives location, binding 0, the converted
format, and the byte offset i * size(item i) exactly as the source computes
it. -/
def buildInputLayout (items : List InputDescriptorItem) :
    VertexInputBindingDescription × List VertexInputAttributeDescription :=
  let size := items.foldl (fun acc item => acc + item.size) 0
  let binding : VertexInputBindingDescription :=
    { binding := 0, stride := size, perVertexInputRate := true }
  let attributes := items.enum.map (fun p =>
    { location := p.2.location
      binding := binding.binding
      format := toVulkanFormat p.2.format
      offset := p.1 * p.2.size : VertexInputAttributeDescription })
  (binding, attributes)

/-- Modelled from the spec: the per-field byte offsets the specification
requires, namely attribute i gets the sum of the sizes of all preceding
fields (the prefix sums of the size list). -/
def specPrefixSumOffsets (sizes : List Nat) : List Nat :=
  (List.range sizes.length).map (fun i => (sizes.take i).sum)

/-- The vertex layout of the repository examples: a vec3 position (12 bytes),
a vec4 color (16 bytes) and a vec2 texture coordinate (8 bytes) at locations
0, 1, 2. -/
def exampleVertexItems : List InputDescriptorItem :=
  [ { location := 0, format := InputFormat.Vector3, size := 12 },
    { location := 1, format := InputFormat.Vector4, size := 16 },
    { location := 2, format := InputFormat.Vector2, size := 8 } ]

/-- C1: buildInputLayout does set the stride to the sum of the field sizes,
but on the heterogeneous field list of the repository examples it assigns
attribute i the byte offset i * size(field i) instead of the prefix sum of
the preceding sizes: the computed offsets are [0, 16, 16] (attributes 1 and 2
overlap), while the specified prefix sums are [0, 12, 28]. -/
theorem buildInputLayout_offsets_not_prefix_sums :
    (buildInputLayout exampleVertexItems).1.stride = 36 ∧
    ((buildInputLayout exampleVertexItems).2.map (fun a => a.offset)) = [0, 16, 16] ∧
    specPrefixSumOffsets (exampleVertexItems.map (fun item => item.size)) = [0, 12, 28] := by
  decide

/-- One iteration of the adapter selection loop in Device::init (device.cpp):
the running best is an optional (adapter, score) pair that is replaced when it
is still unset or when the freshly computed score is strictly greater. -/
def selectStep {α : Type} (score : α → Rat) (best : Option (α × Rat)) (d : α) :
    Option (α × Rat) :=
  match best with
  | none => some (d, score d)
  | some (b, s) => if score d > s then some (d, score d) else some (b, s)

/-- The whole selection loop of Device::init, starting from the nullopt
sentinel. -/
def selectBest {α : Type} (score : α → Rat) (adapters : List α) : Option (α × Rat) :=
  adapters.foldl (selectStep score) none

/-- Adapter selection of Device::init: fail if the enumeration is empty, run
the scoring loop, fail if no best adapter was recorded, and return the
recorded adapter otherwise. -/
def selectAdapter {α : Type} (score : α → Rat) (adapters : List α) : Except ZenError α :=
  if adapters.isEmpty then Except.error ZenError.noDevices
  else
    match selectBest score adapters with
    | none => Except.error ZenError.noSuitableDevice
    | some (d, _) => Except.ok d

/-- Modelled from the spec: the selection rule the specification describes, the
first element of the list attaining the maximal score (ties broken toward the
earlier element). -/
def firstArgmaxSpec {α : Type} (score : α → Rat) : List α → Option α
  | [] => none
  | d :: ds =>
    match firstArgmaxSpec score ds with
    | none => some d
    | some b => if score d < score b then some b else some d

theorem firstArgmaxSpec_cons_of_none {α : Type} (score : α → Rat) (d : α) (ds : List α)
    (h : firstArgmaxSpec score ds = none) :
    firstArgmaxSpec score (d :: ds) = some d := by
  unfold firstArgmaxSpec
  rw [h]

theorem firstArgmaxSpec_cons_of_some {α : Type} (score : α → Rat) (d b : α) (ds : List α)
    (h : firstArgmaxSpec score ds = some b) :
    firstArgmaxSpec score (d :: ds) = if score d < score b then some b else some d := by
  unfold firstArgmaxSpec
  rw [h]

theorem firstArgmaxSpec_cons_isSome {α : Type} (score : α → Rat) (d : α) (ds : List α) :
    ∃ m, firstArgmaxSpec score (d :: ds) = some m := by
  cases hds : firstArgmaxSpec score ds with
  | none => exact ⟨d, firstArgmaxSpec_cons_of_none score d ds hds⟩
  | some b =>
    rw [firstArgmaxSpec_cons_of_some score d b ds hds]
    by_cases h : score d < score b
    · exact ⟨b, by rw [if_pos h]⟩
    · exact ⟨d, by rw [if_neg h]⟩

theorem firstArgmaxSpec_eq_none {α : Type} (score : α → Rat) :
    ∀ l : List α, firstArgmaxSpec score l = none → l = [] := by
  intro l h
  cases l with
  | nil => rfl
  | cons d ds =>
    obtain ⟨m, hm⟩ := firstArgmaxSpec_cons_isSome score d ds
    rw [hm] at h
    cases h

theorem firstArgmaxSpec_le {α : Type} (score : α → Rat) :
    ∀ (l : List α) (m : α), firstArgmaxSpec score l = some m →
      ∀ x ∈ l, score x ≤ score m := by
  intro l
  induction l with
  | nil => intro m h; cases h
  | cons d ds ih =>
    intro m h x hx
    cases hds : firstArgmaxSpec score ds with
    | none =>
      have hnil := firstArgmaxSpec_eq_none score ds hds
      subst hnil
      rw [firstArgmaxSpec_cons_of_none score d [] hds] at h
      cases h
      rcases List.mem_cons.mp hx with hxd | hxnil
      · subst hxd; exact le_refl _
      · cases hxnil
    | some b =>
      rw [firstArgmaxSpec_cons_of_some score d b ds hds] at h
      rcases List.mem_cons.mp hx with hxd | hxds
      · subst hxd
        by_cases hlt : score x < score b
        · rw [if_pos hlt] at h; cases h; exact le_of_lt hlt
        · rw [if_neg hlt] at h; cases h; exact le_refl _
      · by_cases hlt : score d < score b
        · rw [if_pos hlt] at h; cases h; exact ih _ hds x hxds
        · rw [if_neg hlt] at h
          cases h
          exact le_trans (ih b hds x hxds) (le_of_not_lt hlt)

/-- The selection loop started on a recorded candidate b computes exactly the
first maximum of b followed by the remaining candidates. -/
theorem foldl_selectStep_eq {α : Type} (score : α → Rat) :
    ∀ (as : List α) (b : α),
      List.foldl (selectStep score) (some (b, score b)) as
        = (firstArgmaxSpec score (b :: as)).map (fun w => (w, score w)) := by
  intro as
  induction as with
  | nil =>
    intro b
    rw [List.foldl_nil, firstArgmaxSpec_cons_of_none score b [] rfl]
    rfl
  | cons d ds ih =>
    intro b
    have hstep : selectStep score (some (b, score b)) d =
        if score b < score d then some (d, score d) else some (b, score b) := by
      simp [selectStep, gt_iff_lt]
    by_cases h : score b < score d
    · rw [List.foldl_cons, hstep, if_pos h, ih d]
      obtain ⟨m, hm⟩ := firstArgmaxSpec_cons_isSome score d ds
      have hdm : score d ≤ score m :=
        firstArgmaxSpec_le score (d :: ds) m hm d (List.mem_cons_self d ds)
      rw [hm, firstArgmaxSpec_cons_of_some score b m (d :: ds) hm,
          if_pos (lt_of_lt_of_le h hdm)]
    · rw [List.foldl_cons, hstep, if_neg h, ih b]
      have hgoal : firstArgmaxSpec score (b :: ds) = firstArgmaxSpec score (b :: d :: ds) := by
        cases hds : firstArgmaxSpec score ds with
        | none =>
          have hd : firstArgmaxSpec score (d :: ds) = some d :=
            firstArgmaxSpec_cons_of_none score d ds hds
          rw [firstArgmaxSpec_cons_of_none score b ds hds,
              firstArgmaxSpec_cons_of_some score b d (d :: ds) hd, if_neg h]
        | some m1 =>
          have hd := firstArgmaxSpec_cons_of_some score d m1 ds hds
          by_cases hdm1 : score d < score m1
          · rw [if_pos hdm1] at hd
            rw [firstArgmaxSpec_cons_of_some score b m1 ds hds,
                firstArgmaxSpec_cons_of_some score b m1 (d :: ds) hd]
          · rw [if_neg hdm1] at hd
            have hm1b : ¬ score b < score m1 :=
              fun hc => h (lt_of_lt_of_le hc (le_of_not_lt hdm1))
            rw [firstArgmaxSpec_cons_of_some score b m1 ds hds,
                firstArgmaxSpec_cons_of_some score b d (d :: ds) hd, if_neg h, if_neg hm1b]
      rw [hgoal]

/-- C2 counterexample: a single adapter whose score is 0 is nevertheless
selected, so an all-zero candidate list does not make Device::init fail. -/
theorem selectAdapter_zero_score_selected :
    selectAdapter (fun _ => (0 : Rat)) [(0 : Nat)] = Except.ok 0 := rfl

/-- C2 (amended): selectAdapter raises the fatal enumeration error exactly on
the empty adapter list; on any non-empty list the first iteration replaces the
nullopt sentinel regardless of its score, so some adapter is always returned
and the no-suitable-device branch is unreachable. -/
theorem selectAdapter_error_iff_empty {α : Type} (score : α → Rat) :
    selectAdapter score ([] : List α) = Except.error ZenError.noDevices ∧
    ∀ (a : α) (as : List α), ∃ d, selectAdapter score (a :: as) = Except.ok d := by
  constructor
  · rfl
  · intro a as
    obtain ⟨m, hm⟩ := firstArgmaxSpec_cons_isSome score a as
    refine ⟨m, ?_⟩
    have hbest : selectBest score (a :: as) = some (m, score m) := by
      unfold selectBest
      rw [List.foldl_cons]
      have : selectStep score none a = some (a, score a) := rfl
      rw [this, foldl_selectStep_eq score as a, hm]
      rfl
    simp [selectAdapter, hbest]

/-- C4: on a non-empty adapter list the selection returns the first adapter
attaining the maximal score (so ties are broken by enumeration order), the
returned adapter dominates every candidate, and whenever some candidate has a
positive score the selected score is positive, so a zero-scoring adapter is
never selected in that case. -/
theorem selectAdapter_first_argmax {α : Type} (score : α → Rat) (a : α) (as : List α) :
    ∃ d, selectAdapter score (a :: as) = Except.ok d ∧
      firstArgmaxSpec score (a :: as) = some d ∧
      (∀ x ∈ a :: as, score x ≤ score d) ∧
      ((∃ x ∈ a :: as, 0 < score x) → 0 < score d) := by
  obtain ⟨m, hm⟩ := firstArgmaxSpec_cons_isSome score a as
  have hbest : selectBest score (a :: as) = some (m, score m) := by
    unfold selectBest
    rw [List.foldl_cons]
    have : selectStep score none a = some (a, score a) := rfl
    rw [this, foldl_selectStep_eq score as a, hm]
    rfl
  refine ⟨m, ?_, hm, ?_, ?_⟩
  · simp [selectAdapter, hbest]
  · exact firstArgmaxSpec_le score (a :: as) m hm
  · rintro ⟨x, hx, hxpos⟩
    exact lt_of_lt_of_le hxpos (firstArgmaxSpec_le score (a :: as) m hm x hx)

/-- A concrete scoring function for the selection witness: the natural number
of the adapter, cast to a rational. -/
def natCastScore : Nat → Rat := fun n => (n : Rat)

/-- Witness for C4 at the concrete list [0, 1] scored by natCastScore. -/
theorem selectAdapter_first_argmax_witness :
    ∃ d, selectAdapter natCastScore [0, 1] = Except.ok d ∧
      firstArgmaxSpec natCastScore [0, 1] = some d ∧
      (∀ x ∈ [0, 1], natCastScore x ≤ natCastScore d) ∧
      ((∃ x ∈ [0, 1], 0 < natCastScore x) → 0 < natCastScore d) :=
  selectAdapter_first_argmax natCastScore 0 [1]

/-- Load and store policies, enum class Operation in zenith_vulkan.h. -/
inductive Operation where
  | Store
  | Clear
  | DontCare
  deriving DecidableEq, Repr

/-- Attachment roles, enum class AttachmentLayout in zenith_vulkan.h. -/
inductive AttachmentLayout where
  | ColorAttachment
  | DepthAttachment
  deriving DecidableEq, Repr

/-- The VkAttachmentLoadOp values the backend can produce; Load is the
zero-initialised default of VkAttachmentDescription. -/
inductive VkAttachmentLoadOp where
  | Load
  | Clear
  | DontCare
  deriving DecidableEq, Repr

/-- The VkAttachmentStoreOp values the backend can produce; Store is the
zero-initialised default of VkAttachmentDescription. -/
inductive VkAttachmentStoreOp where
  | Store
  | DontCare
  deriving DecidableEq, Repr

/-- The VkImageLayout values the backend mentions; Undefined is the
zero-initialised default. -/
inductive VkImageLayout where
  | Undefined
  | ColorAttachmentOptimal
  | DepthStencilAttachmentOptimal
  | PresentSrcKHR
  deriving DecidableEq, Repr

/-- zen::toVulkanStoreOp from pipeline.cpp: Clear is rejected as a store
operation. -/
def toVulkanStoreOp : Operation → Except ZenError VkAttachmentStoreOp
  | Operation.Store => Except.ok VkAttachmentStoreOp.Store
  | Operation.Clear => Except.error ZenError.clearIsNotStoreOp
  | Operation.DontCare => Except.ok VkAttachmentStoreOp.DontCare

/-- zen::toVulkanLoadOp from pipeline.cpp: Store is rejected as a load
operation. -/
def toVulkanLoadOp : Operation → Except ZenError VkAttachmentLoadOp
  | Operation.Store => Except.error ZenError.storeIsNotLoadOp
  | Operation.Clear => Except.ok VkAttachmentLoadOp.Clear
  | Operation.DontCare => Except.ok VkAttachmentLoadOp.DontCare

/-- zen::Format: a wrapped VkFormat. -/
structure Format where
  format : VkFormat
  deriving DecidableEq, Repr

/-- The fields of VkAttachmentDescription that makeRenderAttachment writes
(samples is the sample count, 1 for VK_SAMPLE_COUNT_1_BIT). -/
structure AttachmentDescription where
  format : VkFormat
  samples : Nat
  loadOp : VkAttachmentLoadOp
  storeOp : VkAttachmentStoreOp
  initialLayout : VkImageLayout
  finalLayout : VkImageLayout
  deriving DecidableEq, Repr

/-- VkAttachmentReference: attachment index and layout. -/
structure AttachmentReference where
  attachment : Int
  layout : VkImageLayout
  deriving DecidableEq, Repr

/-- zen::RenderAttachment with the defaults of zenith_vulkan.h: description
and reference zero-initialised, load Clear, store Store, color layout and
attachment index -1. -/
structure RenderAttachment where
  description : AttachmentDescription
  reference : AttachmentReference
  loadOperation : Operation
  storeOperation : Operation
  format : Format
  layout : AttachmentLayout
  attachmentIndex : Int
  deriving DecidableEq, Repr

/-- The zero-initialised / default-constructed RenderAttachment of
zenith_vulkan.h. -/
def defaultRenderAttachment : RenderAttachment :=
  { description :=
      { format := VkFormat.Undefined
        samples := 0
        loadOp := VkAttachmentLoadOp.Load
        storeOp := VkAttachmentStoreOp.Store
        initialLayout := VkImageLayout.Undefined
        finalLayout := VkImageLayout.Undefined }
    reference := { attachment := 0, layout := VkImageLayout.Undefined }
    loadOperation := Operation.Clear
    storeOperation := Operation.Store
    format := { format := VkFormat.Undefined }
    layout := AttachmentLayout.ColorAttachment
    attachmentIndex := -1 }

instance : Inhabited RenderAttachment := ⟨defaultRenderAttachment⟩

/-- RenderAttachment::makeRenderAttachment from pipeline.cpp: reject a
negative attachment index before anything else, convert the load and store
policies (either can fail), then fill the description and the reference
according to the attachment role. -/
def makeRenderAttachment (a : RenderAttachment) : Except ZenError RenderAttachment :=
  if a.attachmentIndex < 0 then Except.error ZenError.attachmentIndexNotSet
  else do
    let loadOp ← toVulkanLoadOp a.loadOperation
    let storeOp ← toVulkanStoreOp a.storeOperation
    match a.layout with
    | AttachmentLayout.ColorAttachment =>
      Except.ok { a with
        description :=
          { format := a.format.format
            samples := 1
            loadOp := loadOp
            storeOp := storeOp
            initialLayout := VkImageLayout.Undefined
            finalLayout := VkImageLayout.PresentSrcKHR }
        reference :=
          { attachment := a.attachmentIndex
            layout := VkImageLayout.ColorAttachmentOptimal } }
    | AttachmentLayout.DepthAttachment =>
      Except.ok { a with
        description :=
          { format := a.format.format
            samples := 1
            loadOp := loadOp
            storeOp := storeOp
            initialLayout := VkImageLayout.Undefined
            finalLayout := VkImageLayout.DepthStencilAttachmentOptimal }
        reference :=
          { attachment := a.attachmentIndex
            layout := VkImageLayout.DepthStencilAttachmentOptimal } }

/-- The fields of the single VkSubpassDescription RenderPass::create builds
(pipelineBindPoint 0 stands for VK_PIPELINE_BIND_POINT_GRAPHICS; the
colorAttachments list models the pColorAttachments pointer together with
colorAttachmentCount; depthStencilAttachment none models a null
pDepthStencilAttachment). -/
structure SubpassDescription where
  pipelineBindPoint : Nat
  colorAttachmentCount : Nat
  colorAttachments : List AttachmentReference
  depthStencilAttachment : Option AttachmentReference
  deriving DecidableEq, Repr

/-- The observable content of the VkRenderPassCreateInfo RenderPass::create
hands to vkCreateRenderPass. -/
structure RenderPassCreateInfo where
  attachments : List AttachmentDescription
  subpasses : List SubpassDescription
  dependencyCount : Nat
  deriving DecidableEq, Repr

/-- RenderPass::create from pipeline.cpp: fail on an empty attachment list,
run makeRenderAttachment over every attachment in order (head first), and
build one subpass whose color reference is the final reference of attachment
0 and whose depth-stencil reference is the final reference of attachment 1
exactly when a second attachment exists and its role is DepthAttachment.
The C++ subpass stores pointers into the attachment vector, so the values it
exposes are the post-makeRenderAttachment references, while the depth
condition reads the untouched layout field of the original attachment 1. -/
def renderPassCreate (attachments : List RenderAttachment) :
    Except ZenError RenderPassCreateInfo :=
  match attachments with
  | [] => Except.error ZenError.noAttachments
  | a0 :: rest => do
    let u0 ← makeRenderAttachment a0
    let urest ← rest.mapM makeRenderAttachment
    let depthStencil :=
      match rest.head?, urest.head? with
      | some a1, some u1 =>
        if a1.layout = AttachmentLayout.DepthAttachment then some u1.reference else none
      | _, _ => none
    Except.ok
      { attachments := (u0 :: urest).map (fun u => u.description)
        subpasses :=
          [ { pipelineBindPoint := 0
              colorAttachmentCount := 1
              colorAttachments := [u0.reference]
              depthStencilAttachment := depthStencil } ]
        dependencyCount := 1 }

/-- Bind on Except succeeds exactly when both stages succeed. -/
theorem except_bind_ok {ε α β : Type} (x : Except ε α) (f : α → Except ε β) (b : β) :
    (x >>= f) = Except.ok b ↔ ∃ a, x = Except.ok a ∧ f a = Except.ok b := by
  cases x with
  | error e =>
    constructor
    · intro h; cases h
    · rintro ⟨a, ha, _⟩; cases ha
  | ok a =>
    constructor
    · intro h; exact ⟨a, rfl, h⟩
    · rintro ⟨a2, ha, hf⟩; cases ha; exact hf

/-- C8: makeRenderAttachment raises the fatal misuse error exactly on a
negative attachment index, before it converts the operations or touches the
description and reference; for a non-negative index that error is never
raised (the result is either a filled attachment or a load/store policy
error). -/
theorem makeRenderAttachment_index_guard (a : RenderAttachment) :
    (a.attachmentIndex < 0 →
      makeRenderAttachment a = Except.error ZenError.attachmentIndexNotSet) ∧
    (0 ≤ a.attachmentIndex →
      makeRenderAttachment a ≠ Except.error ZenError.attachmentIndexNotSet) := by
  constructor
  · intro hneg
    unfold makeRenderAttachment
    rw [if_pos hneg]
  · intro hpos
    unfold makeRenderAttachment
    rw [if_neg (not_lt.mpr hpos)]
    cases a.loadOperation <;> cases a.storeOperation <;> cases a.layout <;> simp [toVulkanLoadOp, toVulkanStoreOp, Bind.bind, Except.bind]

/-- Witness for C8: the default attachment (index -1) is rejected with the
misuse error, and the same attachment with index 0 is not. -/
theorem makeRenderAttachment_index_guard_witness :
    makeRenderAttachment defaultRenderAttachment
        = Except.error ZenError.attachmentIndexNotSet ∧
    makeRenderAttachment { defaultRenderAttachment with attachmentIndex := 0 }
        ≠ Except.error ZenError.attachmentIndexNotSet :=
  ⟨(makeRenderAttachment_index_guard defaultRenderAttachment).1 (by decide),
   (makeRenderAttachment_index_guard
      { defaultRenderAttachment with attachmentIndex := 0 }).2 (by decide)⟩

/-- C5: creation with no attachments fails fatally; any successful creation
yields exactly one subpass, whose colorAttachmentCount is 1, whose color
reference is the processed reference of attachment 0, whose depth-stencil
reference is null whenever there is no second attachment or the second
attachment is not a depth attachment, and equals the processed reference of
attachment 1 whenever that attachment has the depth role. -/
theorem renderPassCreate_single_subpass :
    renderPassCreate [] = Except.error ZenError.noAttachments ∧
    ∀ (a0 : RenderAttachment) (rest : List RenderAttachment) (info : RenderPassCreateInfo),
      renderPassCreate (a0 :: rest) = Except.ok info →
      ∃ u0 urest, makeRenderAttachment a0 = Except.ok u0 ∧
        rest.mapM makeRenderAttachment = Except.ok urest ∧
        info.subpasses.length = 1 ∧
        ∀ sp ∈ info.subpasses,
          sp.colorAttachmentCount = 1 ∧
          sp.colorAttachments = [u0.reference] ∧
          ((rest.head? = none ∨
              ∃ a1, rest.head? = some a1 ∧ a1.layout ≠ AttachmentLayout.DepthAttachment) →
            sp.depthStencilAttachment = none) ∧
          (∀ a1, rest.head? = some a1 → a1.layout = AttachmentLayout.DepthAttachment →
            ∃ u1, urest.head? = some u1 ∧ sp.depthStencilAttachment = some u1.reference) := by
  constructor
  · rfl
  · intro a0 rest info h
    unfold renderPassCreate at h
    rw [except_bind_ok] at h
    obtain ⟨u0, hu0, h⟩ := h
    rw [except_bind_ok] at h
    obtain ⟨urest, hurest, h⟩ := h
    cases h
    refine ⟨u0, urest, hu0, hurest, rfl, ?_⟩
    intro sp hsp
    rw [List.mem_singleton] at hsp
    subst hsp
    cases rest with
    | nil =>
      rw [List.mapM_nil] at hurest
      have hempty : ([] : List RenderAttachment) = urest := Except.ok.inj hurest
      subst hempty
      exact ⟨rfl, rfl, fun _ => rfl, fun a1 ha1 => by cases ha1⟩
    | cons a1 rs =>
      rw [List.mapM_cons, except_bind_ok] at hurest
      obtain ⟨v, hv, hurest⟩ := hurest
      rw [except_bind_ok] at hurest
      obtain ⟨vs, hvs, hpure⟩ := hurest
      have hcons : v :: vs = urest := Except.ok.inj hpure
      subst hcons
      refine ⟨rfl, rfl, ?_, ?_⟩
      · rintro (hnone | ⟨b1, hb1, hlayout⟩)
        · cases hnone
        · rw [List.head?_cons] at hb1
          cases hb1
          simp [hlayout]
      · intro b1 hb1 hlayout
        rw [List.head?_cons] at hb1
        cases hb1
        refine ⟨v, rfl, ?_⟩
        simp [hlayout]

/-- A concrete color attachment: index 0, Clear load, Store store, color
role, BGRA sRGB format. -/
def sampleColorAttachment : RenderAttachment :=
  { defaultRenderAttachment with
      attachmentIndex := 0
      format := { format := VkFormat.B8G8R8A8Srgb } }

/-- The render pass create info produced for a single sample color
attachment. -/
def sampleRenderPassInfo : RenderPassCreateInfo :=
  { attachments :=
      [ { format := VkFormat.B8G8R8A8Srgb
          samples := 1
          loadOp := VkAttachmentLoadOp.Clear
          storeOp := VkAttachmentStoreOp.Store
          initialLayout := VkImageLayout.Undefined
          finalLayout := VkImageLayout.PresentSrcKHR } ]
    subpasses :=
      [ { pipelineBindPoint := 0
          colorAttachmentCount := 1
          colorAttachments :=
            [ { attachment := 0, layout := VkImageLayout.ColorAttachmentOptimal } ]
          depthStencilAttachment := none } ]
    dependencyCount := 1 }

/-- Witness for C5 at the single sample color attachment. -/
theorem renderPassCreate_single_subpass_witness :
    ∃ u0 urest, makeRenderAttachment sampleColorAttachment = Except.ok u0 ∧
      ([] : List RenderAttachment).mapM makeRenderAttachment = Except.ok urest ∧
      sampleRenderPassInfo.subpasses.length = 1 ∧
      ∀ sp ∈ sampleRenderPassInfo.subpasses,
        sp.colorAttachmentCount = 1 ∧
        sp.colorAttachments = [u0.reference] ∧
        ((([] : List RenderAttachment).head? = none ∨
            ∃ a1, ([] : List RenderAttachment).head? = some a1 ∧
              a1.layout ≠ AttachmentLayout.DepthAttachment) →
          sp.depthStencilAttachment = none) ∧
        (∀ a1, ([] : List RenderAttachment).head? = some a1 →
          a1.layout = AttachmentLayout.DepthAttachment →
          ∃ u1, urest.head? = some u1 ∧ sp.depthStencilAttachment = some u1.reference) :=
  renderPassCreate_single_subpass.2 sampleColorAttachment [] sampleRenderPassInfo rfl

/-- One swapchain image together with its view (presentable.cpp, struct
Image); handles are naturals with 0 for VK_NULL_HANDLE. -/
structure Image where
  image : Nat
  view : Nat
  deriving DecidableEq, Repr

/-- The owned handles of a zen::Presentable that its destructor touches. -/
structure Presentable where
  swapchain : Nat
  images : List Image
  deriving DecidableEq, Repr

/-- The native destroy calls the Presentable destructor can issue. -/
inductive DestroyCall where
  | destroySwapchain (handle : Nat)
  | destroyImageView (handle : Nat)
  | destroyImage (handle : Nat)
  deriving DecidableEq, Repr

/-- Presentable::~Presentable from presentable.cpp, embedded as the ordered
trace of destroy calls it performs: the swapchain is destroyed first when it
is not the null handle, then for every image the view and then the image are
destroyed, each guarded by its own null-handle check. -/
def presentableDestructor (p : Presentable) : List DestroyCall :=
  (if p.swapchain ≠ 0 then [DestroyCall.destroySwapchain p.swapchain] else []) ++
  p.images.foldl (fun calls img =>
    calls ++
    (if img.view ≠ 0 then [DestroyCall.destroyImageView img.view] else []) ++
    (if img.image ≠ 0 then [DestroyCall.destroyImage img.image] else [])) []

/-- C3 evidence: for a fully constructed Presentable (swapchain handle 1, one
image with handle 2 and view handle 3) the destructor trace destroys the
swapchain first and only afterwards the image view and the image, while every
emitted call carries a non-null handle. -/
theorem presentableDestructor_swapchain_before_views :
    presentableDestructor { swapchain := 1, images := [{ image := 2, view := 3 }] } =
      [DestroyCall.destroySwapchain 1, DestroyCall.destroyImageView 3,
       DestroyCall.destroyImage 2] := by
  decide

/-- The two capability fields of VkSurfaceCapabilitiesKHR that the swapchain
image count computation reads. -/
structure SurfaceCapabilities where
  minImageCount : Nat
  maxImageCount : Nat
  deriving DecidableEq, Repr

/-- The image count Presentable::create requests (presentable.cpp): one more
than the capability minimum, computed in uint32 arithmetic, then clamped down
to the capability maximum when that maximum is non-zero and exceeded. -/
def swapchainImageCount (caps : SurfaceCapabilities) : Nat :=
  let imageCount := (caps.minImageCount + 1) % 2 ^ 32
  if 0 < caps.maxImageCount ∧ caps.maxImageCount < imageCount then caps.maxImageCount
  else imageCount

/-- C7 counterexample: for the capability record with minImageCount 5 and
maxImageCount 2 the requested count is 2, which is below minImageCount, so
the requested count is not always at least the capability minimum. -/
theorem swapchainImageCount_can_undershoot_min :
    swapchainImageCount { minImageCount := 5, maxImageCount := 2 } = 2 ∧
    ¬ 5 ≤ swapchainImageCount { minImageCount := 5, maxImageCount := 2 } := by
  constructor
  · rfl
  · intro h
    exact absurd h (by decide)

/-- C7 (amended): assuming minImageCount + 1 does not overflow uint32, the
requested count equals minImageCount + 1 clamped down to maxImageCount when a
maximum exists; it never exceeds max(minImageCount, maxImageCount) when a
maximum exists, and it is at least minImageCount provided the record is
well-formed in the sense the native API guarantees (maxImageCount is zero or
at least minImageCount). -/
theorem swapchainImageCount_bounds (caps : SurfaceCapabilities)
    (hmin : caps.minImageCount + 1 < 2 ^ 32) :
    swapchainImageCount caps =
      (if 0 < caps.maxImageCount ∧ caps.maxImageCount < caps.minImageCount + 1
        then caps.maxImageCount else caps.minImageCount + 1) ∧
    (0 < caps.maxImageCount →
      swapchainImageCount caps ≤ max caps.minImageCount caps.maxImageCount) ∧
    ((caps.maxImageCount = 0 ∨ caps.minImageCount ≤ caps.maxImageCount) →
      caps.minImageCount ≤ swapchainImageCount caps) := by
  have hmod : (caps.minImageCount + 1) % 2 ^ 32 = caps.minImageCount + 1 :=
    Nat.mod_eq_of_lt hmin
  have hdef : swapchainImageCount caps =
      if 0 < caps.maxImageCount ∧ caps.maxImageCount < caps.minImageCount + 1
        then caps.maxImageCount else caps.minImageCount + 1 := by
    unfold swapchainImageCount
    rw [hmod]
  rw [hdef]
  refine ⟨rfl, ?_, ?_⟩
  · intro hmax
    split
    · exact le_max_right _ _
    · next hcond =>
      rcases not_and_or.mp hcond with hc | hc
      · exact absurd hmax hc
      · have := not_lt.mp hc
        omega
  · rintro (hzero | hge)
    · rw [if_neg]
      · omega
      · rintro ⟨hpos, _⟩
        omega
    · split
      · next hcond => omega
      · omega

/-- Witness for C7 at the record with minImageCount 2 and maxImageCount 3:
the requested count is 3 and both bounds hold. -/
theorem swapchainImageCount_bounds_witness :
    swapchainImageCount { minImageCount := 2, maxImageCount := 3 } =
      (if 0 < (3 : Nat) ∧ (3 : Nat) < 2 + 1 then (3 : Nat) else 2 + 1) ∧
    (0 < (3 : Nat) →
      swapchainImageCount { minImageCount := 2, maxImageCount := 3 } ≤ max 2 3) ∧
    (((3 : Nat) = 0 ∨ (2 : Nat) ≤ 3) →
      (2 : Nat) ≤ swapchainImageCount { minImageCount := 2, maxImageCount := 3 }) :=
  swapchainImageCount_bounds { minImageCount := 2, maxImageCount := 3 } (by decide)

/-- One pooled command buffer: its native handle and the in-use flag
(zenith_vulkan.h, class CommandBuffer; the constructor sets inUse to true). -/
structure PoolCommandBuffer where
  handle : Nat
  inUse : Bool
  deriving DecidableEq, Repr

/-- The command-buffer management state of a zen::Device: the lazily created
command pool, the registry of previously issued buffers, and a counter
standing for the next fresh native handle vkAllocateCommandBuffers would
return. -/
structure CommandBufferPool where
  commandPool : Option Nat
  commandBuffers : List PoolCommandBuffer
  nextHandle : Nat
  deriving DecidableEq, Repr

/-- Device::requestCommandBuffer from device.cpp: create the command pool if
it does not exist yet, return the first pooled buffer whose in-use flag is
clear (leaving the pool untouched), and otherwise allocate a fresh buffer,
flag it in use and append it to the registry. -/
def requestCommandBuffer (st : CommandBufferPool) : CommandBufferPool × Nat :=
  let st1 :=
    match st.commandPool with
    | none => { st with commandPool := some 1 }
    | some _ => st
  match st1.commandBuffers.find? (fun cb => !cb.inUse) with
  | some cb => (st1, cb.handle)
  | none =>
    let fresh : PoolCommandBuffer := { handle := st1.nextHandle, inUse := true }
    ({ st1 with
        commandBuffers := st1.commandBuffers ++ [fresh]
        nextHandle := st1.nextHandle + 1 },
      fresh.handle)

/-- CommandBuffer::end from commands.cpp: after ending the recording the
in-use flag of that buffer is cleared (the shared registry entry is the same
object, so the pool sees the cleared flag). -/
def endCommandBuffer (st : CommandBufferPool) (h : Nat) : CommandBufferPool :=
  { st with
      commandBuffers := st.commandBuffers.map (fun cb =>
        if cb.handle = h then { cb with inUse := false } else cb) }

/-- C6: starting from a device that never allocated a command buffer, a
request followed by cycling the returned buffer to the free state makes the
next request return the same handle without growing the registry; and any
request made while every pooled buffer is in use appends one freshly
allocated buffer to the registry and returns its handle. -/
theorem requestCommandBuffer_reuse_and_growth (st : CommandBufferPool) :
    (st.commandBuffers = [] →
      (requestCommandBuffer
          (endCommandBuffer (requestCommandBuffer st).1 (requestCommandBuffer st).2)).2
        = (requestCommandBuffer st).2 ∧
      (requestCommandBuffer
          (endCommandBuffer (requestCommandBuffer st).1 (requestCommandBuffer st).2)).1.commandBuffers.length
        = 1) ∧
    ((∀ cb ∈ st.commandBuffers, cb.inUse = true) →
      (requestCommandBuffer st).1.commandBuffers
          = st.commandBuffers ++ [{ handle := st.nextHandle, inUse := true }] ∧
      (requestCommandBuffer st).2 = st.nextHandle) := by
  obtain ⟨cp, cbs, nh⟩ := st
  constructor
  · intro hempty
    simp only at hempty
    subst hempty
    cases cp <;>
      simp [requestCommandBuffer, endCommandBuffer, List.find?]
  · intro hall
    have hfind : cbs.find? (fun cb => !cb.inUse) = none := by
      rw [List.find?_eq_none]
      intro cb hcb
      rw [hall cb hcb]
      decide
    cases cp <;>
      simp [requestCommandBuffer, hfind]

/-- Witness for C6 at the empty pool with next handle 0 and, for the growth
half, at a pool holding one in-use buffer. -/
theorem requestCommandBuffer_reuse_and_growth_witness :
    ((requestCommandBuffer
        (endCommandBuffer
          (requestCommandBuffer { commandPool := none, commandBuffers := [], nextHandle := 0 }).1
          (requestCommandBuffer { commandPool := none, commandBuffers := [], nextHandle := 0 }).2)).2
      = (requestCommandBuffer { commandPool := none, commandBuffers := [], nextHandle := 0 }).2 ∧
    (requestCommandBuffer
        (endCommandBuffer
          (requestCommandBuffer { commandPool := none, commandBuffers := [], nextHandle := 0 }).1
          (requestCommandBuffer { commandPool := none, commandBuffers := [], nextHandle := 0 }).2)).1.commandBuffers.length
      = 1) ∧
    ((requestCommandBuffer
        { commandPool := some 1, commandBuffers := [{ handle := 0, inUse := true }],
          nextHandle := 1 }).1.commandBuffers
        = [{ handle := 0, inUse := true }] ++ [{ handle := 1, inUse := true }] ∧
    (requestCommandBuffer
        { commandPool := some 1, commandBuffers := [{ handle := 0, inUse := true }],
          nextHandle := 1 }).2 = 1) :=
  ⟨(requestCommandBuffer_reuse_and_growth
      { commandPool := none, commandBuffers := [], nextHandle := 0 }).1 rfl,
   (requestCommandBuffer_reuse_and_growth
      { commandPool := some 1, commandBuffers := [{ handle := 0, inUse := true }],
        nextHandle := 1 }).2 (by decide)⟩

/-- Queue capability tags, enum class DeviceCapabilities in zenith_vulkan.h. -/
inductive DeviceCapabilities where
  | Graphics
  | Compute
  | Transfer
  | Present
  deriving DecidableEq, Repr

/-- A resolved queue record: family index and capability tags (the native
queue handle is filled later and plays no role here). -/
structure CoreQueue where
  familyIndex : Nat
  capabilities : List DeviceCapabilities
  deriving DecidableEq, Repr

/-- The three capability bits of VkQueueFamilyProperties.queueFlags that
findQueueFamilies tests. -/
structure QueueFamilyProperties where
  graphicsBit : Bool
  computeBit : Bool
  transferBit : Bool
  deriving DecidableEq, Repr

/-- The capability list findQueueFamilies pushes for family i: Graphics,
Compute and Transfer in that order when the corresponding bit is set, then
Present when the surface-support query answers true for the family index. -/
def queueCapabilities (i : Nat) (fam : QueueFamilyProperties) (present : Nat → Bool) :
    List DeviceCapabilities :=
  (if fam.graphicsBit then [DeviceCapabilities.Graphics] else []) ++
  (if fam.computeBit then [DeviceCapabilities.Compute] else []) ++
  (if fam.transferBit then [DeviceCapabilities.Transfer] else []) ++
  (if present i then [DeviceCapabilities.Present] else [])

/-- The queue list the loop of Device::findQueueFamilies builds: one
CoreQueue per family index. -/
def resolveQueues (families : List QueueFamilyProperties) (present : Nat → Bool) :
    List CoreQueue :=
  families.enum.map (fun p =>
    { familyIndex := p.1, capabilities := queueCapabilities p.1 p.2 present : CoreQueue })

/-- Device::findQueueFamilies from device.cpp: build one CoreQueue per family,
then fail if the family list is empty, if no queue carries Graphics, or if no
queue carries Present; otherwise the queue list is recorded. The present
argument models the per-family vkGetPhysicalDeviceSurfaceSupportKHR query,
and the two none-of checks of the source are the negated all-checks here. -/
def findQueueFamilies (families : List QueueFamilyProperties) (present : Nat → Bool) :
    Except ZenError (List CoreQueue) :=
  if families.isEmpty then Except.error ZenError.noQueueFamilies
  else if (resolveQueues families present).all
      (fun q => !(decide (DeviceCapabilities.Graphics ∈ q.capabilities))) then
    Except.error ZenError.noGraphicsQueueFamily
  else if (resolveQueues families present).all
      (fun q => !(decide (DeviceCapabilities.Present ∈ q.capabilities))) then
    Except.error ZenError.noPresentQueueFamily
  else Except.ok (resolveQueues families present)

/-- Device::getGraphicsQueue from device.cpp: the first queue whose
capability list contains Graphics, or a fatal error when none exists. -/
def getGraphicsQueue (queues : List CoreQueue) : Except ZenError CoreQueue :=
  match queues.find? (fun q => decide (DeviceCapabilities.Graphics ∈ q.capabilities)) with
  | some q => Except.ok q
  | none => Except.error ZenError.noGraphicsQueue

/-- Device::getPresentQueue from device.cpp: the first queue whose capability
list contains Present, or a fatal error when none exists. -/
def getPresentQueue (queues : List CoreQueue) : Except ZenError CoreQueue :=
  match queues.find? (fun q => decide (DeviceCapabilities.Present ∈ q.capabilities)) with
  | some q => Except.ok q
  | none => Except.error ZenError.noPresentQueue

/-- A successful find? splits the list into a prefix of failures, the found
element, and a suffix. -/
theorem find_some_decomp {α : Type} (p : α → Bool) :
    ∀ (l : List α) (a : α), l.find? p = some a →
      ∃ l1 l2, l = l1 ++ a :: l2 ∧ (∀ x ∈ l1, p x = false) ∧ p a = true := by
  intro l
  induction l with
  | nil => intro a h; cases h
  | cons x xs ih =>
    intro a h
    by_cases hx : p x
    · rw [List.find?_cons_of_pos _ hx] at h
      cases h
      exact ⟨[], xs, rfl, fun y hy => absurd hy (List.not_mem_nil y), hx⟩
    · rw [List.find?_cons_of_neg _ hx] at h
      obtain ⟨l1, l2, heq, hfail, hfound⟩ := ih a h
      refine ⟨x :: l1, l2, by rw [heq, List.cons_append], ?_, hfound⟩
      intro y hy
      rcases List.mem_cons.mp hy with hyx | hyl1
      · subst hyx; exact Bool.eq_false_iff.mpr hx
      · exact hfail y hyl1

/-- If some element satisfies the predicate then find? succeeds. -/
theorem find_isSome_of_exists {α : Type} (p : α → Bool) :
    ∀ l : List α, (∃ x ∈ l, p x = true) → ∃ a, l.find? p = some a := by
  intro l
  induction l with
  | nil => rintro ⟨x, hx, _⟩; cases hx
  | cons y ys ih =>
    rintro ⟨x, hx, hpx⟩
    by_cases hy : p y
    · exact ⟨y, List.find?_cons_of_pos _ hy⟩
    · rcases List.mem_cons.mp hx with hxy | hxys
      · subst hxy; exact absurd hpx (Bool.eq_false_iff.mp (Bool.eq_false_iff.mpr hy))
      · obtain ⟨a, ha⟩ := ih ⟨x, hxys, hpx⟩
        exact ⟨a, by rw [List.find?_cons_of_neg _ hy]; exact ha⟩

/-- From the failure of an all-not check, some element satisfies the
predicate. -/
theorem exists_true_of_not_all_not {α : Type} (p : α → Bool) (l : List α)
    (h : ¬ (l.all (fun x => !(p x)) = true)) : ∃ x ∈ l, p x = true := by
  by_contra hc
  push_neg at hc
  apply h
  rw [List.all_eq_true]
  intro x hx
  have hfx : p x = false := by
    cases hpx : p x with
    | false => rfl
    | true => exact absurd hpx (hc x hx)
  simp [hfx]

/-- C9: whenever findQueueFamilies succeeds, getGraphicsQueue and
getPresentQueue succeed as well (their error branches are unreachable), and
each returns the first recorded queue whose capability list contains Graphics
respectively Present. -/
theorem getQueues_ok_after_findQueueFamilies (families : List QueueFamilyProperties)
    (present : Nat → Bool) (queues : List CoreQueue)
    (h : findQueueFamilies families present = Except.ok queues) :
    (∃ l1 q l2, queues = l1 ++ q :: l2 ∧
      (∀ p ∈ l1, DeviceCapabilities.Graphics ∉ p.capabilities) ∧
      DeviceCapabilities.Graphics ∈ q.capabilities ∧
      getGraphicsQueue queues = Except.ok q) ∧
    (∃ l1 q l2, queues = l1 ++ q :: l2 ∧
      (∀ p ∈ l1, DeviceCapabilities.Present ∉ p.capabilities) ∧
      DeviceCapabilities.Present ∈ q.capabilities ∧
      getPresentQueue queues = Except.ok q) := by
  unfold findQueueFamilies at h
  split at h
  · cases h
  · split at h
    · cases h
    · split at h
      · cases h
      · next hg hp =>
        cases h
        have hgex := exists_true_of_not_all_not
          (fun q : CoreQueue => decide (DeviceCapabilities.Graphics ∈ q.capabilities))
          (resolveQueues families present) hg
        have hpex := exists_true_of_not_all_not
          (fun q : CoreQueue => decide (DeviceCapabilities.Present ∈ q.capabilities))
          (resolveQueues families present) hp
        constructor
        · obtain ⟨q, hq⟩ := find_isSome_of_exists _ _ hgex
          obtain ⟨l1, l2, heq, hfail, hfound⟩ := find_some_decomp _ _ _ hq
          refine ⟨l1, q, l2, heq, ?_, of_decide_eq_true hfound, ?_⟩
          · intro pq hpq
            exact of_decide_eq_false (hfail pq hpq)
          · unfold getGraphicsQueue
            rw [hq]
        · obtain ⟨q, hq⟩ := find_isSome_of_exists _ _ hpex
          obtain ⟨l1, l2, heq, hfail, hfound⟩ := find_some_decomp _ _ _ hq
          refine ⟨l1, q, l2, heq, ?_, of_decide_eq_true hfound, ?_⟩
          · intro pq hpq
            exact of_decide_eq_false (hfail pq hpq)
          · unfold getPresentQueue
            rw [hq]

/-- Witness for C9 at one queue family exposing all three capability bits and
surface support on every family index. -/
theorem getQueues_ok_after_findQueueFamilies_witness :
    (∃ l1 q l2,
      [({ familyIndex := 0,
          capabilities := [DeviceCapabilities.Graphics, DeviceCapabilities.Compute,
            DeviceCapabilities.Transfer, DeviceCapabilities.Present] } : CoreQueue)]
        = l1 ++ q :: l2 ∧
      (∀ p ∈ l1, DeviceCapabilities.Graphics ∉ p.capabilities) ∧
      DeviceCapabilities.Graphics ∈ q.capabilities ∧
      getGraphicsQueue
        [{ familyIndex := 0,
           capabilities := [DeviceCapabilities.Graphics, DeviceCapabilities.Compute,
             DeviceCapabilities.Transfer, DeviceCapabilities.Present] }] = Except.ok q) ∧
    (∃ l1 q l2,
      [({ familyIndex := 0,
          capabilities := [DeviceCapabilities.Graphics, DeviceCapabilities.Compute,
            DeviceCapabilities.Transfer, DeviceCapabilities.Present] } : CoreQueue)]
        = l1 ++ q :: l2 ∧
      (∀ p ∈ l1, DeviceCapabilities.Present ∉ p.capabilities) ∧
      DeviceCapabilities.Present ∈ q.capabilities ∧
      getPresentQueue
        [{ familyIndex := 0,
           capabilities := [DeviceCapabilities.Graphics, DeviceCapabilities.Compute,
             DeviceCapabilities.Transfer, DeviceCapabilities.Present] }] = Except.ok q) :=
  getQueues_ok_after_findQueueFamilies
    [{ graphicsBit := true, computeBit := true, transferBit := true }]
    (fun _ => true) _ rfl

/-- VK_KHR_SWAPCHAIN_EXTENSION_NAME. -/
def vkKhrSwapchainExtensionName : String := "VK_KHR_swapchain"

/-- The default extension list of zen::Device (zenith_vulkan.h): exactly the
swapchain extension. -/
def defaultDeviceExtensions : List String := [vkKhrSwapchainExtensionName]

/-- Device::supportsExtensions from device.cpp: when the required list is
empty it is replaced by the configured device extension list, and every entry
of the resulting list must appear in the available-extension set of the
physical device (modelled as the list the enumeration returns). -/
def supportsExtensions (requiredExtensions : List String)
    (deviceExtensions : List String) (available : List String) : Bool :=
  let extensionsToCheck :=
    if requiredExtensions.isEmpty then deviceExtensions else requiredExtensions
  extensionsToCheck.all (fun req => decide (req ∈ available))

/-- Device::supportsSwapchain from device.cpp: supportsExtensions on the
singleton list holding the swapchain extension. -/
def supportsSwapchain (deviceExtensions : List String) (available : List String) : Bool :=
  supportsExtensions [vkKhrSwapchainExtensionName] deviceExtensions available

/-- C10: with an empty required list supportsExtensions checks the configured
device extension list, and on a default-configured device the no-argument
call coincides with supportsSwapchain for every available-extension set. -/
theorem supportsExtensions_empty_fallback (deviceExtensions available : List String) :
    supportsExtensions [] deviceExtensions available
        = deviceExtensions.all (fun req => decide (req ∈ available)) ∧
    supportsExtensions [] defaultDeviceExtensions available
        = supportsSwapchain defaultDeviceExtensions available := by
  exact ⟨rfl, rfl⟩

end Zenith
